import Mathlib

/-!
# Verification of the message-intake / lead-qualification pipeline

Shallow embedding of the core coordination logic of the repository
(`app/main.py`, `app/utils.py`, `app/crm_integration.py`,
`app/execute_functions.py`, `app/services/crm_manager.py`,
`app/services/lasso_crm_service.py`) together with proofs of the
frozen claims about it.

Modelling conventions:
* Python strings are Lean `String`s; character-level routines work on
  `List Char`.  `str.lower`, `str.isdigit` and `str.strip` are modelled
  on the ASCII subset (all string constants appearing in the relevant
  code paths are ASCII or already lower-case).
* Python dicts with dynamic key sets are association lists
  (`List (String × _)`) with Python assignment semantics (replace in
  place, else append); dicts with a fixed key set are Lean structures.
* Network calls (the Lasso CRM HTTP API, the OpenAI API) are modelled
  as oracle parameters: a function from the call's arguments to an
  abstract outcome, which may also model a raised exception where the
  source wraps the call in `try/except`.
* `time.time()` instants are naturals counting milliseconds, so the
  1.5 s debounce window is `1500`.
-/

namespace Chable

/-! ## Python string primitives -/

/-- ASCII whitespace recognised by `str.strip`. -/
def isPySpace (c : Char) : Bool :=
  c = ' ' || c = '\t' || c = '\n' || c = '\x0d' || c = '\x0b' || c = '\x0c'

/-- `str.lstrip` on characters. -/
def lstripChars (cs : List Char) : List Char := cs.dropWhile isPySpace

/-- `str.rstrip` on characters. -/
def rstripChars (cs : List Char) : List Char :=
  (cs.reverse.dropWhile isPySpace).reverse

/-- `str.strip` on characters. -/
def pyStripChars (cs : List Char) : List Char := lstripChars (rstripChars cs)

/-- `str.lower`, ASCII fragment. -/
def pyLower (s : String) : String := ⟨s.data.map Char.toLower⟩

/-- Python's `needle in hay` substring test, on characters. -/
def listContains : List Char → List Char → Bool
  | [], needle => needle.isEmpty
  | c :: rest, needle => needle.isPrefixOf (c :: rest) || listContains rest needle

/-- Python's `needle in hay` substring test on strings. -/
def pyIn (needle hay : String) : Bool := listContains hay.data needle.data

/-- Maximal runs of ASCII digits, left to right: the character-level
core of `re.findall(r'\d+', s)`. -/
def digitRunsAux : List Char → List Char → List (List Char)
  | [], acc => if acc.isEmpty then [] else [acc.reverse]
  | c :: cs, acc =>
    if c.isDigit then digitRunsAux cs (c :: acc)
    else if acc.isEmpty then digitRunsAux cs []
    else acc.reverse :: digitRunsAux cs []

/-- All maximal digit runs of a string, in order. -/
def digitRuns (s : String) : List (List Char) := digitRunsAux s.data []

/-- `int` applied to a run of decimal digits. -/
def digitsToNat (cs : List Char) : Nat :=
  cs.foldl (fun acc c => acc * 10 + (c.toNat - '0'.toNat)) 0

/-- `re.findall(r'\d+', s)` followed by `int` on each match. -/
def extractNumbers (s : String) : List Nat := (digitRuns s).map digitsToNat

/-- Association-list lookup: Python `d[k]` / `d.get(k)`. -/
def alistGet {α : Type} (d : List (String × α)) (k : String) : Option α :=
  (d.find? (fun p => p.1 = k)).map (·.2)

/-- Association-list assignment: Python `d[k] = v` (replace the existing
binding in place, else append). -/
def alistSet {α : Type} (d : List (String × α)) (k : String) (v : α) :
    List (String × α) :=
  if (d.find? (fun p => p.1 = k)).isSome then
    d.map (fun p => if p.1 = k then (k, v) else p)
  else d ++ [(k, v)]

/-! ## DebounceCoalescer (`app/utils.py`, `get_debounced_message`)

One buffer per sender in the module-level `message_buffer` dict; times in
milliseconds, window `1500`. -/

/-- One entry of `message_buffer`. -/
structure MBuffer where
  message : String
  timestamp : Nat
  messageSid : String
  messageCount : Nat
  deriving Repr, DecidableEq

/-- `get_debounced_message(whatsapp_number, current_message, message_sid)`
at instant `now`, acting on the buffer map.  Returns
`((combined_message, message_sid, should_process), new buffer map)`. -/
def getDebouncedMessage (buffers : List (String × MBuffer))
    (sender currentMessage messageSid : String) (now : Nat) :
    (String × String × Bool) × List (String × MBuffer) :=
  match alistGet buffers sender with
  | some bufferData =>
    if now - bufferData.timestamp < 1500 then
      -- smart combination: space for short fragments onto short buffers
      let combined :=
        if currentMessage.length ≤ 10 && bufferData.message.length ≤ 50 then
          bufferData.message ++ " " ++ currentMessage
        else
          bufferData.message ++ "\n" ++ currentMessage
      let bufferData' : MBuffer :=
        { bufferData with
            message := combined
            timestamp := now
            messageCount := bufferData.messageCount + 1 }
      ((combined, bufferData.messageSid, false), alistSet buffers sender bufferData')
    else
      -- stale buffer: replace it and process the current message now
      ((currentMessage, messageSid, true),
        alistSet buffers sender
          ⟨currentMessage, now, messageSid, 1⟩)
  | none =>
    ((currentMessage, messageSid, true),
      alistSet buffers sender ⟨currentMessage, now, messageSid, 1⟩)

/-- `cleanup_message_buffer(whatsapp_number)`. -/
def cleanupMessageBuffer (buffers : List (String × MBuffer)) (sender : String) :
    List (String × MBuffer) :=
  buffers.filter (fun p => p.1 ≠ sender)

/-! ## LeadQualificationEngine (`app/main.py`, `create_or_update_lead_immediately`)

The qualified-lead row is modelled as the record of the fields this
function reads or writes. -/

/-- The slice of a `QualifiedLead` row touched by
`create_or_update_lead_immediately`. -/
structure LeadRec where
  nombre : String
  proyectoInteres : String
  ciudadInteres : String
  leadRating : String
  conversationSummary : String
  deriving Repr, DecidableEq

/-- Property-interest keyword detection (`main.py` lines 652–666): first
matching keyword group wins, defaulting to `"yucatan"`. -/
def detectPropertyInterest (messageLower : String) : String :=
  if ["yucatan", "yucatán", "riviera maya", "cancun",
      "playa del carmen"].any (fun w => pyIn w messageLower) then "yucatan"
  else if ["valle de guadalupe", "baja california", "ensenada",
      "vino"].any (fun w => pyIn w messageLower) then "valle_de_guadalupe"
  else if ["costalegre", "jalisco", "guadalajara",
      "puerto vallarta"].any (fun w => pyIn w messageLower) then "costalegre"
  else if ["mar de cortes", "cortes"].any (fun w => pyIn w messageLower) then
    "mar_de_cortes"
  else "yucatan"

/-- Rating inference from the inbound message (`main.py` lines 670–675):
start at `"initial"`, purchase vocabulary raises to `"warm"`, urgency
vocabulary raises to `"hot"`. -/
def inferLeadRating (messageLower : String) : String :=
  let r := "initial"
  let r := if ["comprar", "comprar", "invertir", "inversión", "presupuesto",
      "precio", "costo"].any (fun w => pyIn w messageLower) then "warm" else r
  if ["urgente", "inmediato", "esta semana", "pronto", "visita", "llamada",
      "contacto"].any (fun w => pyIn w messageLower) then "hot" else r

/-- `rating_hierarchy = {"initial": 1, "warm": 2, "hot": 3}` with
`.get(r, 1)` (`main.py` lines 735–737). -/
def ratingHierarchy (r : String) : Nat :=
  (alistGet [("initial", 1), ("warm", 2), ("hot", 3)] r).getD 1

/-- The create-or-update step of `create_or_update_lead_immediately` on the
lead row (`main.py` lines 704–745).  `fullName` is the name resolved from
the profile name or the message (lines 631–650; its computation does not
touch the rating).  The customer-row upsert and the CRM push that follow
do not feed back into the lead fields handled here. -/
def createOrUpdateLeadStep : Option LeadRec → String → String → LeadRec
  | none, message, fullName =>
    { nombre := fullName
      proyectoInteres := detectPropertyInterest (pyLower message)
      ciudadInteres := detectPropertyInterest (pyLower message)
      leadRating := inferLeadRating (pyLower message)
      conversationSummary :=
        "Lead creado automáticamente - Rating: "
          ++ inferLeadRating (pyLower message) }
  | some lead0, message, fullName =>
    let propertyInterest := detectPropertyInterest (pyLower message)
    let leadRating := inferLeadRating (pyLower message)
    let lead1 :=
      if fullName ≠ "" && lead0.nombre = "" then
        { lead0 with nombre := fullName }
      else lead0
    let lead2 :=
      if propertyInterest ≠ "" && lead1.proyectoInteres = "" then
        { lead1 with proyectoInteres := propertyInterest
                     ciudadInteres := propertyInterest }
      else lead1
    if ratingHierarchy leadRating > ratingHierarchy lead2.leadRating then
      { lead2 with
          leadRating := leadRating
          conversationSummary :=
            "Lead actualizado - Rating: " ++ leadRating }
    else lead2

/-- The lead row after a sequence of inbound `(message, profile name)`
pairs for one phone number, starting from no lead. -/
def runLeadPipeline (msgs : List (String × String)) : Option LeadRec :=
  msgs.foldl (fun acc p => some (createOrUpdateLeadStep acc p.1 p.2)) none

/-- The claim's rating order `cold < initial < warm < hot`. -/
def claimRatingLevel (r : String) : Nat :=
  if r = "cold" then 0
  else if r = "initial" then 1
  else if r = "warm" then 2
  else if r = "hot" then 3
  else 0

/-! ## Webhook pipeline (`app/main.py`, `process_message`)

The text-message path of the `/message` endpoint, as one transition on
the durable state.  Media handling is the same pipeline with the body
replaced by a transcription/description, so it is not modelled
separately; `clean_repeated_text` is a pure body-to-body rewrite that
never touches the message sid, so deliveries carry the cleaned body.
The AI reply (`ai_handler.process_message`) is an oracle `ai`; side
effects downstream of the dedup gate are tracked by counters. -/

/-- One `conversations` row (`app/models.py` lines 102–130;
`message_sid` is unique for deduplication). -/
structure ConvRec where
  sender : String
  message : String
  response : String
  messageSid : String
  deriving Repr, DecidableEq

/-- One inbound webhook delivery (the Twilio form fields the text path
reads).  `body` is the message text after `clean_repeated_text`. -/
structure Delivery where
  sender : String
  body : String
  messageSid : String
  time : Nat
  profileName : String
  deriving Repr, DecidableEq

/-- Durable state crossed by `process_message`: the debounce buffer map,
the `conversations` table, the per-phone lead row, and counters of the
side-effecting calls made past the dedup gate. -/
structure SysState where
  buffers : List (String × MBuffer)
  convs : List ConvRec
  leads : List (String × LeadRec)
  aiCalls : Nat
  leadRuns : Nat
  crmRuns : Nat
  deriving Repr

/-- The message sids present in the `conversations` table. -/
def convSids (s : SysState) : List String := s.convs.map (·.messageSid)

/-- The text path of `process_message` (`main.py` lines 208–519).
`blocked` models the blocked-numbers table, `paused` the senders whose
thread has `is_paused` set, and `ai` the AI orchestrator.  Returns the
new state and the HTTP status of the acknowledgment. -/
def processMessage (blocked paused : List String) (ai : String → String)
    (s : SysState) (d : Delivery) : SysState × Nat :=
  if d.messageSid = "" then (s, 200)               -- no MessageSid
  else if d.sender = "" then (s, 200)              -- no WhatsApp number
  else if d.sender ∈ blocked then (s, 200)         -- blocked number
  else if d.body = "" then (s, 200)                -- no message content
  else
    -- apply message debouncing
    match getDebouncedMessage s.buffers d.sender d.body d.messageSid d.time with
    | ((debouncedMessage, finalMessageSid, shouldProcess), buffers') =>
      let s := { s with buffers := buffers' }
      if !shouldProcess then (s, 200)              -- buffered, return early
      else if finalMessageSid ∈ convSids s then (s, 200)  -- already processed
      else
        -- AI reply unless the thread is paused
        let s := if d.sender ∈ paused then s
                 else { s with aiCalls := s.aiCalls + 1 }
        let response := if d.sender ∈ paused then "" else ai debouncedMessage
        -- store the conversation
        let s := { s with convs := s.convs ++
          [(⟨d.sender, debouncedMessage, response, finalMessageSid⟩ : ConvRec)] }
        -- create or update the lead, then push it to the CRM
        let lead' := createOrUpdateLeadStep (alistGet s.leads d.sender)
          debouncedMessage d.profileName
        ({ s with
            leads := alistSet s.leads d.sender lead'
            leadRuns := s.leadRuns + 1
            crmRuns := s.crmRuns + 1 }, 200)

/-- A run of the webhook endpoint over a delivery sequence. -/
def runPipeline (blocked paused : List String) (ai : String → String)
    (s : SysState) (ds : List Delivery) : SysState :=
  ds.foldl (fun st d => (processMessage blocked paused ai st d).1) s

/-- The empty initial state. -/
def initState : SysState := ⟨[], [], [], 0, 0, 0⟩

/-! ## CRMRouter (`app/services/lasso_crm_service.py`,
`app/services/crm_manager.py`, `app/crm_integration.py`)

Result dicts built with dynamic keys are association lists over `RVal`;
the Lasso HTTP calls are oracles. -/

/-- A Python value occurring in CRM result dicts. -/
inductive RVal where
  | rbool (b : Bool)
  | rstr (s : String)
  | rint (n : Nat)
  | rnone
  | rlist (l : List String)
  | rdict (d : List (String × RVal))
  deriving Repr

/-- Python truthiness of an `RVal`. -/
def RVal.truthy : RVal → Bool
  | .rbool b => b
  | .rstr s => !s.isEmpty
  | .rint n => n ≠ 0
  | .rnone => false
  | .rlist l => !l.isEmpty
  | .rdict d => !d.isEmpty

/-- `d.get(k)` is truthy. -/
def dictTruthy (d : List (String × RVal)) (k : String) : Bool :=
  ((alistGet d k).getD .rnone).truthy

/-- One entry of `LassoCRMService.PROPERTY_MAPPING`. -/
structure PropInfo where
  id : Nat
  name : String
  displayName : String
  apiKeyEnv : String
  deriving Repr, DecidableEq

/-- `LassoCRMService.PROPERTY_MAPPING`, in source order. -/
def lassoPropertyMapping : List (String × PropInfo) :=
  [("costalegre", ⟨24609, "Costalegre", "Costalegre", "LASSO_API_KEY_COSTALEGRE"⟩),
   ("residencias", ⟨24608, "Residencias", "Residencias", "LASSO_API_KEY_RESIDENCIAS"⟩),
   ("valle_de_guadalupe",
     ⟨24611, "Valle de Guadalupe", "Valle de Guadalupe", "LASSO_API_KEY_VALLE_DE_GUADALUPE"⟩),
   ("yucatan", ⟨24610, "Yucatan", "Yucatan", "LASSO_API_KEY_YUCATAN"⟩),
   ("mar_de_cortes", ⟨24778, "Mar de Cortes", "Mar de Cortes", "LASSO_API_KEY_MAR_DE_CORTES"⟩)]

/-- The property keys of the table. -/
def lassoPropertyKeys : List String := lassoPropertyMapping.map (·.1)

/-- `LassoCRMService.get_property_info`. -/
def getPropertyInfo (propertyKey : String) : Option PropInfo :=
  alistGet lassoPropertyMapping (pyLower propertyKey)

/-- `LassoCRMService.validate_property_key`: the key, lower-cased, is in
`configured_properties` — i.e. it exists *and* its API key env var is
set.  `configured` is the key set of `configured_properties`. -/
def validatePropertyKey (configured : List String) (propertyKey : String) : Bool :=
  configured.contains (pyLower propertyKey)

/-- `LassoCRMService.is_property_configured` (no lower-casing here). -/
def isPropertyConfigured (configured : List String) (propertyKey : String) : Bool :=
  configured.contains propertyKey

/-- A `property_info` dict as stored inside a result dict (`None` when
the key is unknown). -/
def propInfoRVal : Option PropInfo → RVal
  | none => .rnone
  | some pi =>
    .rdict [("id", .rint pi.id), ("name", .rstr pi.name),
            ("display_name", .rstr pi.displayName),
            ("api_key_env", .rstr pi.apiKeyEnv)]

/-- Outcome of the network-level call
`LassoCRMService.create_or_update_lead`: the returned value, or a raised
exception (the callers wrap it in `try/except`). -/
inductive LassoOutcome where
  | ret (v : RVal)
  | raise (msg : String)

/-- `results["errors"].append(msg)`. -/
def appendError (results : List (String × RVal)) (msg : String) :
    List (String × RVal) :=
  match alistGet results "errors" with
  | some (.rlist l) => alistSet results "errors" (.rlist (l ++ [msg]))
  | _ => results

/-- `CRMManager._inject_to_lasso`: call `create_or_update_lead`
(the oracle `outcome`), then wrap the returned id.  The `none` case of
the property lookup models the caught exception of the `try/except`
(unreachable from `inject_lead_to_property`, which has already resolved
the property). -/
def injectToLasso (outcome : LassoOutcome) (propertyKey : String) :
    List (String × RVal) :=
  match outcome with
  | .raise e => [("success", .rbool false), ("error", .rstr e)]
  | .ret leadId =>
    if leadId.truthy then
      match getPropertyInfo propertyKey with
      | some pi =>
        [("success", .rbool true), ("lead_id", leadId),
         ("property_id", .rint pi.id), ("property_name", .rstr pi.name),
         ("message", .rstr ("Successfully created/updated Lasso CRM lead for "
            ++ pi.displayName))]
      | none =>
        [("success", .rbool false), ("error", .rstr "property info not found")]
    else
      [("success", .rbool false),
       ("error", .rstr "Failed to create/update Lasso CRM lead")]

/-- `CRMManager.inject_lead_to_property` (`crm_manager.py` lines 35–107).
`configured` is the set of property keys whose API key is set
(`lasso_enabled` is its non-emptiness); `lassoCall` is the oracle for
the one Lasso call this invocation can make.  The customer-data
enhancement (lines 76–81) only feeds that call. -/
def injectLeadToProperty (configured : List String) (lassoCall : LassoOutcome)
    (propertyKey : String) : List (String × RVal) :=
  let results : List (String × RVal) :=
    [("success", .rbool false), ("property_key", .rstr propertyKey),
     ("property_info", propInfoRVal (getPropertyInfo propertyKey)),
     ("lasso", .rnone), ("errors", .rlist [])]
  if !validatePropertyKey configured propertyKey then
    appendError results ("Invalid property key: " ++ propertyKey)
  else
    match getPropertyInfo propertyKey with
    | none => appendError results ("Property info not found for: " ++ propertyKey)
    | some pi =>
      let results := alistSet results "property_info" (propInfoRVal (some pi))
      if !configured.isEmpty then        -- lasso_enabled
        if isPropertyConfigured configured propertyKey then
          let lassoResult := injectToLasso lassoCall propertyKey
          let results := alistSet results "lasso" (.rdict lassoResult)
          if dictTruthy lassoResult "success" then
            alistSet results "success" (.rbool true)
          else results
        else
          let msg := "Property " ++ propertyKey
            ++ " is not configured in Lasso CRM (API key not set)"
          let results := appendError results msg
          alistSet results "lasso"
            (.rdict [("success", .rbool false), ("error", .rstr msg)])
      else
        appendError results "Lasso CRM is not configured (no API keys set for any property)"

/-- Accumulator pass of `inject_lead_to_multiple_properties`
(`crm_manager.py` lines 162–180): the per-property call is abstracted as
`call`, which may raise (`Except.error`) — the source isolates each call
in its own `try/except`.  Returns
`(successful_injections, failed_injections, property_results, errors)`. -/
def injectMultiAux (call : String → Except String (List (String × RVal))) :
    List String → Nat → Nat → List (String × RVal) → List String →
    Nat × Nat × List (String × RVal) × List String
  | [], succ, fail, propResults, errors => (succ, fail, propResults, errors)
  | k :: ks, succ, fail, propResults, errors =>
    match call k with
    | .ok r =>
      let propResults := alistSet propResults k (.rdict r)
      if dictTruthy r "success" then
        injectMultiAux call ks (succ + 1) fail propResults errors
      else
        injectMultiAux call ks succ (fail + 1) propResults errors
    | .error e =>
      let msg := "Error injecting to property " ++ k ++ ": " ++ e
      injectMultiAux call ks succ (fail + 1)
        (alistSet propResults k
          (.rdict [("success", .rbool false), ("error", .rstr msg)]))
        (errors ++ [msg])

/-- `CRMManager.inject_lead_to_multiple_properties` (`crm_manager.py`
lines 138–185).  The mutable `results` dict has a fixed key set, built
here in source order from the accumulator. -/
def injectLeadToMultipleProperties
    (call : String → Except String (List (String × RVal)))
    (propertyKeys : List String) : List (String × RVal) :=
  let acc := injectMultiAux call propertyKeys 0 0 [] []
  [("success", .rbool (decide (0 < acc.1))),
   ("total_properties", .rint propertyKeys.length),
   ("successful_injections", .rint acc.1),
   ("failed_injections", .rint acc.2.1),
   ("property_results", .rdict acc.2.2.1),
   ("errors", .rlist acc.2.2.2)]

/-- Whether the per-property call counts as a successful injection
(`property_result.get("success")` truthy; a raised exception counts as
failure). -/
def callSucceeds (call : String → Except String (List (String × RVal)))
    (k : String) : Bool :=
  match call k with
  | .ok r => dictTruthy r "success"
  | .error _ => false

/-! ## Property inference and lead injection
(`app/crm_integration.py`) -/

/-- `project_mapping` of `_determine_property_from_lead`, in source
order. -/
def projectMapping : List (String × String) :=
  [("costalegre", "costalegre"), ("residencias", "residencias"),
   ("valle de guadalupe", "valle_de_guadalupe"),
   ("yucatan", "yucatan"), ("yucatán", "yucatan")]

/-- `city_mapping` of `_determine_property_from_lead`, in source order. -/
def cityMapping : List (String × String) :=
  [("yucatan", "yucatan"), ("yucatán", "yucatan"),
   ("merida", "yucatan"), ("mérida", "yucatan"),
   ("riviera maya", "yucatan"), ("cancun", "yucatan"), ("cancún", "yucatan"),
   ("playa del carmen", "yucatan"), ("tulum", "yucatan"),
   ("cozumel", "yucatan"), ("quintana roo", "yucatan"),
   ("caribe", "yucatan"), ("caribbean", "yucatan"),
   ("costalegre", "costalegre"), ("guadalajara", "costalegre"),
   ("puerto vallarta", "costalegre"), ("vallarta", "costalegre"),
   ("jalisco", "costalegre"),
   ("guadalupe", "valle_de_guadalupe"), ("ensenada", "valle_de_guadalupe"),
   ("baja california", "valle_de_guadalupe"), ("valle", "valle_de_guadalupe"),
   ("vino", "valle_de_guadalupe"), ("wine", "valle_de_guadalupe")]

/-- First entry of `mapping` whose name is a substring of `field`
(the `for … if name in field: return key` loops). -/
def firstSubstringMatch (mapping : List (String × String)) (field : String) :
    Option String :=
  (mapping.find? (fun p => pyIn p.1 (pyLower field))).map (·.2)

/-- `_determine_property_from_lead` (`crm_integration.py` lines 92–168)
on the two lead fields it reads (empty string models an unset field,
matching Python truthiness). -/
def determinePropertyFromLead (proyectoInteres ciudadInteres : String) : String :=
  match (if proyectoInteres ≠ "" then
          firstSubstringMatch projectMapping proyectoInteres
         else none) with
  | some key => key
  | none =>
    match (if ciudadInteres ≠ "" then
            firstSubstringMatch cityMapping ciudadInteres
           else none) with
    | some key => key
    | none => "residencias"         -- default for general leads

/-- The slice of a `QualifiedLead` row touched by
`inject_qualified_lead_to_crm`; the remaining copied fields (name,
email, phone, …) feed only the CRM payload, an oracle input here. -/
structure CrmLead where
  proyectoInteres : String
  ciudadInteres : String
  crmInjected : Bool
  crmLeadId : Option String
  deriving Repr, DecidableEq

/-- `result.get("lead_id")` as assigned into the `crm_lead_id` string
column (`None` when the key is absent). -/
def rvalAsLeadId : Option RVal → Option String
  | some (.rstr s) => some s
  | _ => none

/-- `inject_qualified_lead_to_crm` (`crm_integration.py` lines 16–89).
`updateResult` is the dict `update_existing_lead_in_crm` would return on
the already-injected path (that helper never writes the lead row).
Returns the updated lead row and the result dict. -/
def injectQualifiedLeadToCrm (configured : List String)
    (lassoCall : LassoOutcome) (updateResult : List (String × RVal))
    (lead : CrmLead) (propertyKey : Option String) :
    CrmLead × List (String × RVal) :=
  if lead.crmInjected && (match lead.crmLeadId with
                          | some s => !s.isEmpty
                          | none => false) then
    (lead, updateResult)
  else
    let key := match propertyKey with
      | some k => k
      | none => determinePropertyFromLead lead.proyectoInteres lead.ciudadInteres
    if key = "" then
      (lead, [("success", .rbool false),
              ("error", .rstr "Could not determine property for lead injection")])
    else
      let result := injectLeadToProperty configured lassoCall key
      if dictTruthy result "success" then
        ({ lead with
            crmInjected := true
            crmLeadId := rvalAsLeadId (alistGet result "lead_id") }, result)
      else (lead, result)

/-! ## Phone normalization
(`app/services/lasso_crm_service.py`, `normalize_phone_number`) -/

/-- `phone.replace("whatsapp:", "")`: remove every (non-overlapping,
left-to-right) occurrence of the prefix. -/
def stripWhatsappTag : List Char → List Char
  | 'w' :: 'h' :: 'a' :: 't' :: 's' :: 'a' :: 'p' :: 'p' :: ':' :: rest =>
    stripWhatsappTag rest
  | c :: rest => c :: stripWhatsappTag rest
  | [] => []

/-- The digit-extraction and country-code steps of
`normalize_phone_number` (lines 133–146), applied to the stripped,
tag-free character list: keep a leading `+`, keep digits, and default a
bare 10-digit number to the Mexican country code. -/
def normalizePhoneTail (s : List Char) : List Char :=
  let digits :=
    if s.head? = some '+' then '+' :: s.tail.filter Char.isDigit
    else s.filter Char.isDigit
  if digits.isEmpty then digits
  else if digits.head? = some '+' then digits
  else if digits.length = 10 then '+' :: '5' :: '2' :: digits
  else '+' :: digits

/-- `normalize_phone_number` on characters (`lasso_crm_service.py` lines
116–146): empty in, empty out; otherwise strip whitespace, drop
`whatsapp:` tags, then extract digits and the country code. -/
def normalizePhoneChars (cs : List Char) : List Char :=
  if cs.isEmpty then []
  else normalizePhoneTail (stripWhatsappTag (pyStripChars cs))

/-- `LassoCRMService.normalize_phone_number`. -/
def normalizePhoneNumber (phone : String) : String :=
  ⟨normalizePhoneChars phone.data⟩

/-- Whether a string starts with a whitespace character (spec-side
helper used to state the amended prefix-invariance claim). -/
def hasLeadingSpace (p : String) : Bool :=
  match p.data.head? with
  | some c => isPySpace c
  | none => false

/-! ## ToolDispatcher (`app/execute_functions.py`) -/

/-- A Python value occurring in a tool call's argument payload. -/
inductive PyVal where
  | vstr (s : String)
  | vint (n : Nat)
  | vbool (b : Bool)
  deriving Repr, DecidableEq

/-- Python truthiness of an argument value. -/
def PyVal.truthy : PyVal → Bool
  | .vstr s => !s.isEmpty
  | .vint n => n ≠ 0
  | .vbool b => b

/-- The `sender_info` dict built by the webhook handlers. -/
structure SenderInfo where
  number : Option String
  platform : Option String
  deriving Repr, DecidableEq

/-- The sender-info stamping step of `execute_function`
(`execute_functions.py` lines 116–123), applied to the parsed argument
payload before any handler is dispatched: WhatsApp senders get their
`telefono` forced from `sender_info`, and `fuente` is always forced to
the platform. -/
def addSenderInfoToArgs (functionArguments : List (String × PyVal))
    (senderInfo : Option SenderInfo) : List (String × PyVal) :=
  match senderInfo with
  | none => functionArguments
  | some si =>
    let platform := si.platform.getD "whatsapp"
    let args :=
      if pyLower platform = "whatsapp" then
        alistSet functionArguments "telefono" (.vstr (si.number.getD ""))
      else functionArguments
    alistSet args "fuente" (.vstr platform)

/-! ## CaptureInfo budget normalization
(`app/execute_functions.py`, `capture_customer_info` lines 326–351) -/

/-- The `presupuesto` conversion step: pop the free-text budget, extract
its embedded integers, and set `presupuesto_min`/`presupuesto_max`
scaled to millions. -/
def applyBudgetConversion (customerData : List (String × PyVal)) :
    List (String × PyVal) :=
  match alistGet customerData "presupuesto" with
  | none => customerData
  | some presupuestoValue =>
    let data := customerData.filter (fun p => p.1 ≠ "presupuesto")  -- pop
    match presupuestoValue with
    | .vstr s =>
      if !s.isEmpty then                 -- `if presupuesto_value and isinstance(…, str)`
        match extractNumbers s with
        | n0 :: n1 :: _ =>               -- range detected
          alistSet (alistSet data "presupuesto_min" (.vint (n0 * 1000000)))
            "presupuesto_max" (.vint (n1 * 1000000))
        | [n0] =>                        -- single value, use as max
          alistSet data "presupuesto_max" (.vint (n0 * 1000000))
        | [] => data                     -- no numbers: leave budget unset
      else data
    | _ => data                          -- not a string

/-- The allow-list of `capture_customer_info` (lines 344–348). -/
def validFields : List String :=
  ["nombre", "email", "telefono", "fuente", "ciudad_interes",
   "tipo_propiedad", "presupuesto_min", "presupuesto_max", "interes_compra"]

/-- The filtering step of `capture_customer_info` (line 351): keep only
allow-listed keys with truthy values. -/
def filterValidFields (customerData : List (String × PyVal)) :
    List (String × PyVal) :=
  customerData.filter (fun p => validFields.contains p.1 && p.2.truthy)

/-! ## Helper lemmas about dict operations -/

theorem find?_map_replace {α : Type} (d : List (String × α)) (k : String) (v : α)
    (h : (d.find? (fun p => p.1 = k)).isSome) :
    (d.map (fun p => if p.1 = k then (k, v) else p)).find? (fun p => p.1 = k)
      = some (k, v) := by
  induction d with
  | nil => simp at h
  | cons a d ih =>
    by_cases hk : a.1 = k
    · simp [hk]
    · simp only [List.find?_cons_of_neg, hk, decide_eq_true_eq, not_false_iff,
        List.map_cons, if_neg hk] at h ⊢
      simpa [hk] using ih (by simpa [hk] using h)

theorem find?_map_replace_ne {α : Type} (d : List (String × α)) (k k' : String)
    (v : α) (h : k' ≠ k) :
    (d.map (fun p => if p.1 = k then (k, v) else p)).find? (fun p => p.1 = k')
      = d.find? (fun p => p.1 = k') := by
  induction d with
  | nil => simp
  | cons a d ih =>
    simp only [List.map_cons]
    by_cases hk : a.1 = k
    · rw [if_pos hk]
      have h1 : ¬ ((k, v).1 = k') := fun hh => h (by simpa using hh.symm)
      have h2 : ¬ (a.1 = k') := by rw [hk]; exact fun hh => h hh.symm
      rw [List.find?_cons_of_neg _ (by simpa using h1),
          List.find?_cons_of_neg _ (by simpa using h2), ih]
    · rw [if_neg hk]
      by_cases hk' : a.1 = k'
      · rw [List.find?_cons_of_pos _ (by simpa using hk'),
            List.find?_cons_of_pos _ (by simpa using hk')]
      · rw [List.find?_cons_of_neg _ (by simpa using hk'),
            List.find?_cons_of_neg _ (by simpa using hk'), ih]

theorem alistGet_alistSet_self {α : Type} (d : List (String × α)) (k : String)
    (v : α) : alistGet (alistSet d k v) k = some v := by
  unfold alistGet alistSet
  by_cases h : (d.find? (fun p => p.1 = k)).isSome
  · simp only [h, if_true, find?_map_replace d k v h, Option.map_some']
  · simp only [h, if_false, List.find?_append]
    have hd : d.find? (fun p => p.1 = k) = none := by
      cases hh : d.find? (fun p => p.1 = k) with
      | none => rfl
      | some x => rw [hh] at h; simp at h
    simp [hd]

theorem alistGet_alistSet_ne {α : Type} (d : List (String × α)) (k k' : String)
    (v : α) (h : k' ≠ k) :
    alistGet (alistSet d k v) k' = alistGet d k' := by
  unfold alistGet alistSet
  by_cases hs : (d.find? (fun p => p.1 = k)).isSome
  · simp only [hs, if_true, find?_map_replace_ne d k k' v h]
  · simp only [hs, if_false, List.find?_append]
    have : ([(k, v)].find? (fun p => p.1 = k')) = none := by
      simp [Ne.symm h]
    simp [this]

theorem alistGet_filter_key_ne {α : Type} (d : List (String × α))
    (key k : String) (h : k ≠ key) :
    alistGet (d.filter (fun p => p.1 ≠ key)) k = alistGet d k := by
  unfold alistGet
  congr 1
  induction d with
  | nil => simp
  | cons a d ih =>
    simp only [List.filter_cons]
    by_cases hkey : a.1 = key
    · have hk : ¬ (a.1 = k) := by rw [hkey]; exact fun hh => h hh.symm
      rw [if_neg (by simp [hkey]), List.find?_cons_of_neg _ (by simpa using hk), ih]
    · rw [if_pos (by simp [hkey])]
      by_cases hk : a.1 = k
      · rw [List.find?_cons_of_pos _ (by simpa using hk),
            List.find?_cons_of_pos _ (by simpa using hk)]
      · rw [List.find?_cons_of_neg _ (by simpa using hk),
            List.find?_cons_of_neg _ (by simpa using hk), ih]

/-! ## C2 — Idempotent webhook -/

theorem nodup_append_single {α : Type} {l : List α} {a : α}
    (h : l.Nodup) (ha : a ∉ l) : (l ++ [a]).Nodup := by
  refine List.Nodup.append h (List.nodup_singleton a) ?_
  intro x hx hx'
  rw [List.mem_singleton] at hx'
  subst hx'
  exact ha hx

theorem getDebouncedMessage_true_sid (buffers : List (String × MBuffer))
    (sender msg sid : String) (now : Nat)
    (h : (getDebouncedMessage buffers sender msg sid now).1.2.2 = true) :
    (getDebouncedMessage buffers sender msg sid now).1.2.1 = sid := by
  unfold getDebouncedMessage at h ⊢
  cases hb : alistGet buffers sender with
  | none => rfl
  | some b =>
    rw [hb] at h
    dsimp only at h ⊢
    by_cases hw : now - b.timestamp < 1500
    · rw [if_pos hw] at h
      simp at h
    · rw [if_neg hw]

theorem processMessage_preserves_nodup (blocked paused : List String)
    (ai : String → String) (s : SysState) (d : Delivery)
    (h : List.Nodup (convSids s)) :
    List.Nodup (convSids (processMessage blocked paused ai s d).1) := by
  unfold processMessage
  by_cases h1 : d.messageSid = ""
  · rw [if_pos h1]; exact h
  rw [if_neg h1]
  by_cases h2 : d.sender = ""
  · rw [if_pos h2]; exact h
  rw [if_neg h2]
  by_cases h3 : d.sender ∈ blocked
  · rw [if_pos h3]; exact h
  rw [if_neg h3]
  by_cases h4 : d.body = ""
  · rw [if_pos h4]; exact h
  rw [if_neg h4]
  rcases hdb : getDebouncedMessage s.buffers d.sender d.body d.messageSid d.time
    with ⟨⟨text, effSid, sp⟩, buffers'⟩
  dsimp only
  cases sp with
  | false => rw [if_pos (show (!false) = true from rfl)]; exact h
  | true =>
    rw [if_neg (show ¬ ((!true) = true) from by decide)]
    by_cases h5 : effSid ∈ convSids { s with buffers := buffers' }
    · rw [if_pos h5]; exact h
    · rw [if_neg h5]
      simp only [convSids] at h h5
      by_cases h6 : d.sender ∈ paused
      · simp only [if_pos h6, convSids, List.map_append, List.map_cons,
          List.map_nil]
        exact nodup_append_single h h5
      · simp only [if_neg h6, convSids, List.map_append, List.map_cons,
          List.map_nil]
        exact nodup_append_single h h5

theorem processMessage_duplicate_no_effects (blocked paused : List String)
    (ai : String → String) (s : SysState) (d : Delivery)
    (hdup : d.messageSid ∈ convSids s) :
    (processMessage blocked paused ai s d).1.convs = s.convs ∧
    (processMessage blocked paused ai s d).1.aiCalls = s.aiCalls ∧
    (processMessage blocked paused ai s d).1.leadRuns = s.leadRuns ∧
    (processMessage blocked paused ai s d).1.crmRuns = s.crmRuns ∧
    (processMessage blocked paused ai s d).2 = 200 := by
  unfold processMessage
  by_cases h1 : d.messageSid = ""
  · rw [if_pos h1]; exact ⟨rfl, rfl, rfl, rfl, rfl⟩
  rw [if_neg h1]
  by_cases h2 : d.sender = ""
  · rw [if_pos h2]; exact ⟨rfl, rfl, rfl, rfl, rfl⟩
  rw [if_neg h2]
  by_cases h3 : d.sender ∈ blocked
  · rw [if_pos h3]; exact ⟨rfl, rfl, rfl, rfl, rfl⟩
  rw [if_neg h3]
  by_cases h4 : d.body = ""
  · rw [if_pos h4]; exact ⟨rfl, rfl, rfl, rfl, rfl⟩
  rw [if_neg h4]
  rcases hdb : getDebouncedMessage s.buffers d.sender d.body d.messageSid d.time
    with ⟨⟨text, effSid, sp⟩, buffers'⟩
  dsimp only
  cases sp with
  | false =>
    rw [if_pos (show (!false) = true from rfl)]
    exact ⟨rfl, rfl, rfl, rfl, rfl⟩
  | true =>
    rw [if_neg (show ¬ ((!true) = true) from by decide)]
    have hsid : effSid = d.messageSid := by
      have := getDebouncedMessage_true_sid s.buffers d.sender d.body
        d.messageSid d.time (by rw [hdb])
      rw [hdb] at this
      exact this
    have h5 : effSid ∈ convSids { s with buffers := buffers' } := by
      rw [hsid]
      exact hdup
    rw [if_pos h5]
    exact ⟨rfl, rfl, rfl, rfl, rfl⟩

/-- C2: delivering a message whose provider id (`message_sid`) was
already processed acknowledges with status 200 and performs no side
effects — the conversations table, the AI-call, lead-qualification and
CRM-injection counters are unchanged — and along any run of the
pipeline the conversations table holds at most one record per
`message_sid`. -/
theorem c2_idempotent_webhook (blocked paused : List String)
    (ai : String → String) (s : SysState) (d : Delivery) :
    (d.messageSid ∈ convSids s →
      (processMessage blocked paused ai s d).1.convs = s.convs ∧
      (processMessage blocked paused ai s d).1.aiCalls = s.aiCalls ∧
      (processMessage blocked paused ai s d).1.leadRuns = s.leadRuns ∧
      (processMessage blocked paused ai s d).1.crmRuns = s.crmRuns ∧
      (processMessage blocked paused ai s d).2 = 200) ∧
    (List.Nodup (convSids s) →
      List.Nodup (convSids (processMessage blocked paused ai s d).1)) ∧
    (∀ ds, List.Nodup (convSids (runPipeline blocked paused ai initState ds))) := by
  refine ⟨processMessage_duplicate_no_effects blocked paused ai s d,
    processMessage_preserves_nodup blocked paused ai s d, ?_⟩
  intro ds
  have : ∀ (ds : List Delivery) (s0 : SysState), List.Nodup (convSids s0) →
      List.Nodup (convSids (runPipeline blocked paused ai s0 ds)) := by
    intro ds
    induction ds with
    | nil => intro s0 h0; exact h0
    | cons e es ih =>
      intro s0 h0
      exact ih _ (processMessage_preserves_nodup blocked paused ai s0 e h0)
  exact this ds initState (by simp [initState, convSids])

/-- C2 witness: redelivering sid `"SM1"` leaves the state's records and
counters unchanged and still acknowledges with 200. -/
theorem c2_idempotent_webhook_witness :
    (processMessage [] [] (fun _ => "ok")
        ⟨[], [⟨"u", "hola", "resp", "SM1"⟩], [], 1, 1, 1⟩
        ⟨"u", "hola otra vez", "SM1", 5000, "Name"⟩).1.convs
      = [⟨"u", "hola", "resp", "SM1"⟩] ∧
    (processMessage [] [] (fun _ => "ok")
        ⟨[], [⟨"u", "hola", "resp", "SM1"⟩], [], 1, 1, 1⟩
        ⟨"u", "hola otra vez", "SM1", 5000, "Name"⟩).1.aiCalls = 1 ∧
    (processMessage [] [] (fun _ => "ok")
        ⟨[], [⟨"u", "hola", "resp", "SM1"⟩], [], 1, 1, 1⟩
        ⟨"u", "hola otra vez", "SM1", 5000, "Name"⟩).2 = 200 := by
  have h := (c2_idempotent_webhook [] [] (fun _ => "ok")
      ⟨[], [⟨"u", "hola", "resp", "SM1"⟩], [], 1, 1, 1⟩
      ⟨"u", "hola otra vez", "SM1", 5000, "Name"⟩).1 (by decide)
  exact ⟨h.1, h.2.1, h.2.2.2.2⟩

/-! ## C4 — Debounce merge -/

/-- C4 (amended): for a sender with an existing buffer, a fragment
arriving strictly less than 1.5 s after the buffered timestamp is merged
into the buffered text — joined with a space when the fragment is at
most 10 characters *and the buffered text is at most 50 characters*,
otherwise with a newline — the timestamp is updated, the fragment
counter incremented, and `(mergedText, buffered provider id, false)` is
returned. -/
theorem c4_debounce_merge (buffers : List (String × MBuffer))
    (sender fragment sid : String) (now : Nat) (b : MBuffer)
    (hbuf : alistGet buffers sender = some b)
    (hwin : now - b.timestamp < 1500) :
    getDebouncedMessage buffers sender fragment sid now =
      (((if fragment.length ≤ 10 && b.message.length ≤ 50 then
           b.message ++ " " ++ fragment
         else b.message ++ "\n" ++ fragment),
        b.messageSid, false),
       alistSet buffers sender
         { b with
             message := if fragment.length ≤ 10 && b.message.length ≤ 50 then
                 b.message ++ " " ++ fragment
               else b.message ++ "\n" ++ fragment
             timestamp := now
             messageCount := b.messageCount + 1 }) := by
  unfold getDebouncedMessage
  rw [hbuf]
  simp [hwin]

/-- C4 witness: `"Hola"` buffered at 0, fragment `"como"` at 1 s. -/
theorem c4_debounce_merge_witness :
    getDebouncedMessage [("u", (⟨"Hola", 0, "S0", 1⟩ : MBuffer))]
        "u" "como" "S1" 1000
      = (("Hola como", "S0", false),
         [("u", (⟨"Hola como", 1000, "S0", 2⟩ : MBuffer))]) := by
  rw [c4_debounce_merge [("u", (⟨"Hola", 0, "S0", 1⟩ : MBuffer))]
       "u" "como" "S1" 1000 ⟨"Hola", 0, "S0", 1⟩ rfl (by decide)]
  rfl

/-- C4 counterexample to the claim as stated: a fragment of at most 10
characters is joined with a *newline*, not a space, when the buffered
text is longer than 50 characters. -/
theorem c4_space_join_counterexample :
    ("hola".length ≤ 10) ∧
    (getDebouncedMessage
        [("u", (⟨String.mk (List.replicate 51 'a'), 0, "S0", 1⟩ : MBuffer))]
        "u" "hola" "S1" 1000).1.1
      = String.mk (List.replicate 51 'a') ++ "\n" ++ "hola" ∧
    (getDebouncedMessage
        [("u", (⟨String.mk (List.replicate 51 'a'), 0, "S0", 1⟩ : MBuffer))]
        "u" "hola" "S1" 1000).1.1
      ≠ String.mk (List.replicate 51 'a') ++ " " ++ "hola" := by
  refine ⟨by decide, by decide, by decide⟩

/-! ## C7 — Property inference totality and precedence -/

theorem firstSubstringMatch_sound (m : List (String × String)) (f k : String)
    (h : firstSubstringMatch m f = some k) : ∃ p ∈ m, p.2 = k := by
  unfold firstSubstringMatch at h
  cases hf : m.find? (fun p => pyIn p.1 (pyLower f)) with
  | none => rw [hf] at h; simp at h
  | some p =>
    rw [hf] at h
    simp only [Option.map_some', Option.some.injEq] at h
    exact ⟨p, List.mem_of_find?_eq_some hf, h⟩

theorem projectMapping_values_mem :
    ∀ p ∈ projectMapping, p.2 ∈ lassoPropertyKeys := by decide

theorem cityMapping_values_mem :
    ∀ p ∈ cityMapping, p.2 ∈ lassoPropertyKeys := by decide

/-- C7: `_determine_property_from_lead` is deterministic and total — for
every lead, including one with both fields empty, it returns one of the
property-table keys (never none), with the three-tier precedence:
project-name match first, then city match, then the `"residencias"`
fallback. -/
theorem c7_property_inference_total (proyecto ciudad : String) :
    (determinePropertyFromLead proyecto ciudad ∈ lassoPropertyKeys) ∧
    (∀ key, proyecto ≠ "" →
      firstSubstringMatch projectMapping proyecto = some key →
      determinePropertyFromLead proyecto ciudad = key) ∧
    (∀ key, (proyecto = "" ∨ firstSubstringMatch projectMapping proyecto = none) →
      ciudad ≠ "" → firstSubstringMatch cityMapping ciudad = some key →
      determinePropertyFromLead proyecto ciudad = key) ∧
    ((proyecto = "" ∨ firstSubstringMatch projectMapping proyecto = none) →
     (ciudad = "" ∨ firstSubstringMatch cityMapping ciudad = none) →
     determinePropertyFromLead proyecto ciudad = "residencias") := by
  unfold determinePropertyFromLead
  refine ⟨?_, ?_, ?_, ?_⟩
  · cases h1 : (if proyecto ≠ "" then
        firstSubstringMatch projectMapping proyecto else none) with
    | some k =>
      have hk : firstSubstringMatch projectMapping proyecto = some k := by
        by_cases hp : proyecto = ""
        · simp [hp] at h1
        · simpa [hp] using h1
      obtain ⟨p, hp, hpk⟩ := firstSubstringMatch_sound _ _ _ hk
      simpa [h1, ← hpk] using projectMapping_values_mem p hp
    | none =>
      cases h2 : (if ciudad ≠ "" then
          firstSubstringMatch cityMapping ciudad else none) with
      | some k =>
        have hk : firstSubstringMatch cityMapping ciudad = some k := by
          by_cases hc : ciudad = ""
          · simp [hc] at h2
          · simpa [hc] using h2
        obtain ⟨p, hp, hpk⟩ := firstSubstringMatch_sound _ _ _ hk
        simpa [h1, h2, ← hpk] using cityMapping_values_mem p hp
      | none => simp [h1, h2]; decide
  · intro key hp hm
    simp [hp, hm]
  · intro key hp hc hm
    have h1 : (if proyecto ≠ "" then
        firstSubstringMatch projectMapping proyecto else none) = none := by
      rcases hp with hp | hp <;> simp [hp]
    simp [h1, hc, hm]
  · intro hp hc
    have h1 : (if proyecto ≠ "" then
        firstSubstringMatch projectMapping proyecto else none) = none := by
      rcases hp with hp | hp <;> simp [hp]
    have h2 : (if ciudad ≠ "" then
        firstSubstringMatch cityMapping ciudad else none) = none := by
      rcases hc with hc | hc <;> simp [hc]
    simp [h1, h2]

/-- C7 witness: both fields empty yield the fallback key. -/
theorem c7_property_inference_total_witness :
    determinePropertyFromLead "" "" = "residencias" ∧
    determinePropertyFromLead "" "" ∈ lassoPropertyKeys :=
  ⟨(c7_property_inference_total "" "").2.2.2 (Or.inl rfl) (Or.inl rfl),
   (c7_property_inference_total "" "").1⟩

/-! ## C8 — Budget normalization -/

/-- C8: the `presupuesto` free-text conversion of `capture_customer_info`:
two or more embedded integers make the first two `presupuesto_min` and
`presupuesto_max`, each scaled by 1 000 000; exactly one sets only
`presupuesto_max`; none leaves both unset. -/
theorem c8_budget_normalization (data : List (String × PyVal)) (s : String)
    (hp : alistGet data "presupuesto" = some (.vstr s))
    (hmin : alistGet data "presupuesto_min" = none)
    (hmax : alistGet data "presupuesto_max" = none) :
    (∀ n0 n1 rest, extractNumbers s = n0 :: n1 :: rest →
      alistGet (applyBudgetConversion data) "presupuesto_min"
          = some (.vint (n0 * 1000000)) ∧
      alistGet (applyBudgetConversion data) "presupuesto_max"
          = some (.vint (n1 * 1000000))) ∧
    (∀ n0, extractNumbers s = [n0] →
      alistGet (applyBudgetConversion data) "presupuesto_min" = none ∧
      alistGet (applyBudgetConversion data) "presupuesto_max"
          = some (.vint (n0 * 1000000))) ∧
    (extractNumbers s = [] →
      alistGet (applyBudgetConversion data) "presupuesto_min" = none ∧
      alistGet (applyBudgetConversion data) "presupuesto_max" = none) := by
  have hpopmin : alistGet (data.filter (fun p => p.1 ≠ "presupuesto"))
      "presupuesto_min" = none := by
    rw [alistGet_filter_key_ne _ _ _ (by decide)]; exact hmin
  have hpopmax : alistGet (data.filter (fun p => p.1 ≠ "presupuesto"))
      "presupuesto_max" = none := by
    rw [alistGet_filter_key_ne _ _ _ (by decide)]; exact hmax
  have hs_empty : s.isEmpty = true → extractNumbers s = [] := by
    intro h
    rw [(String.isEmpty_iff s).mp h]
    rfl
  refine ⟨?_, ?_, ?_⟩
  · intro n0 n1 rest hn
    have hne : s.isEmpty = false := by
      cases h : s.isEmpty
      · rfl
      · rw [hs_empty h] at hn; cases hn
    unfold applyBudgetConversion
    rw [hp]
    simp only [hne, Bool.not_false, if_true, hn]
    constructor
    · rw [alistGet_alistSet_ne _ _ _ _ (by decide), alistGet_alistSet_self]
    · rw [alistGet_alistSet_self]
  · intro n0 hn
    have hne : s.isEmpty = false := by
      cases h : s.isEmpty
      · rfl
      · rw [hs_empty h] at hn; cases hn
    unfold applyBudgetConversion
    rw [hp]
    simp only [hne, Bool.not_false, if_true, hn]
    constructor
    · rw [alistGet_alistSet_ne _ _ _ _ (by decide)]; exact hpopmin
    · rw [alistGet_alistSet_self]
  · intro hn
    unfold applyBudgetConversion
    rw [hp]
    cases h : s.isEmpty
    · simp only [h, Bool.not_false, if_true, hn]
      exact ⟨hpopmin, hpopmax⟩
    · simp only [h, Bool.not_true, if_false]
      exact ⟨hpopmin, hpopmax⟩

/-- C8 witness: `"300-500 millones"` becomes the range
`(300 000 000, 500 000 000)`. -/
theorem c8_budget_normalization_witness :
    alistGet (applyBudgetConversion [("presupuesto", PyVal.vstr "300-500 millones")])
        "presupuesto_min" = some (.vint 300000000) ∧
    alistGet (applyBudgetConversion [("presupuesto", PyVal.vstr "300-500 millones")])
        "presupuesto_max" = some (.vint 500000000) := by
  have h := (c8_budget_normalization
      [("presupuesto", PyVal.vstr "300-500 millones")] "300-500 millones"
      rfl rfl rfl).1 300 500 [] (by decide)
  simpa using h

/-! ## C6 — Multi-property injection isolation -/

theorem filter_length_add_filter_not_length {α : Type} (p : α → Bool)
    (l : List α) :
    (l.filter p).length + (l.filter (fun a => !p a)).length = l.length := by
  induction l with
  | nil => rfl
  | cons a l ih =>
    cases h : p a
    · simp [List.filter_cons, h]
      omega
    · simp [List.filter_cons, h]
      omega

theorem alistGet_alistSet {α : Type} (d : List (String × α)) (k k' : String)
    (v : α) :
    alistGet (alistSet d k v) k' = if k' = k then some v else alistGet d k' := by
  by_cases h : k' = k
  · rw [if_pos h, h, alistGet_alistSet_self]
  · rw [if_neg h, alistGet_alistSet_ne _ _ _ _ h]

theorem injectMultiAux_spec
    (call : String → Except String (List (String × RVal))) :
    ∀ (keys : List String) (succ fail : Nat) (pr : List (String × RVal))
      (errs : List String),
    (injectMultiAux call keys succ fail pr errs).1
        = succ + (keys.filter (callSucceeds call)).length ∧
    (injectMultiAux call keys succ fail pr errs).2.1
        = fail + (keys.filter (fun k => !callSucceeds call k)).length ∧
    (∀ k, k ∈ keys ∨ (alistGet pr k).isSome →
      (alistGet (injectMultiAux call keys succ fail pr errs).2.2.1 k).isSome) := by
  intro keys
  induction keys with
  | nil =>
    intro succ fail pr errs
    refine ⟨by simp [injectMultiAux], by simp [injectMultiAux], ?_⟩
    intro k hk
    rcases hk with hk | hk
    · simp at hk
    · simpa [injectMultiAux] using hk
  | cons a keys ih =>
    intro succ fail pr errs
    have hset : ∀ (v : RVal) (k : String), k ∈ keys ∨ (alistGet pr k).isSome →
        k ∈ keys ∨ (alistGet (alistSet pr a v) k).isSome := by
      intro v k hk
      rcases hk with hk | hk
      · exact Or.inl hk
      · right
        rw [alistGet_alistSet]
        by_cases hka : k = a
        · simp [hka]
        · rw [if_neg hka]; exact hk
    have hmema : ∀ (v : RVal), (alistGet (alistSet pr a v) a).isSome := by
      intro v
      rw [alistGet_alistSet_self]
      rfl
    cases hca : call a with
    | ok r =>
      by_cases hs : dictTruthy r "success" = true
      · have hcs : callSucceeds call a = true := by simp [callSucceeds, hca, hs]
        have step : injectMultiAux call (a :: keys) succ fail pr errs
            = injectMultiAux call keys (succ + 1) fail
                (alistSet pr a (.rdict r)) errs := by
          unfold injectMultiAux
          rw [hca]
          simp only [hs, if_true]
          rw [injectMultiAux.eq_def]
        obtain ⟨ih1, ih2, ih3⟩ := ih (succ + 1) fail (alistSet pr a (.rdict r)) errs
        refine ⟨?_, ?_, ?_⟩
        · rw [step, ih1]
          simp only [List.filter_cons, hcs, if_true, List.length_cons]
          omega
        · rw [step, ih2]
          simp only [List.filter_cons, hcs, Bool.not_true]
          simp
        · intro k hk
          rw [step]
          apply ih3
          rcases hk with hk | hk
          · rcases List.mem_cons.mp hk with hk | hk
            · subst hk; right; exact hmema _
            · exact Or.inl hk
          · exact hset _ _ (Or.inr hk)
      · have hcs : callSucceeds call a = false := by
          simp [callSucceeds, hca]
          simpa using hs
        have step : injectMultiAux call (a :: keys) succ fail pr errs
            = injectMultiAux call keys succ (fail + 1)
                (alistSet pr a (.rdict r)) errs := by
          unfold injectMultiAux
          rw [hca]
          simp only [hs, Bool.false_eq_true, if_false]
          rw [injectMultiAux.eq_def]
        obtain ⟨ih1, ih2, ih3⟩ := ih succ (fail + 1) (alistSet pr a (.rdict r)) errs
        refine ⟨?_, ?_, ?_⟩
        · rw [step, ih1]
          simp only [List.filter_cons, hcs, Bool.false_eq_true, if_false]
        · rw [step, ih2]
          simp only [List.filter_cons, hcs, Bool.not_false, if_true,
            List.length_cons]
          omega
        · intro k hk
          rw [step]
          apply ih3
          rcases hk with hk | hk
          · rcases List.mem_cons.mp hk with hk | hk
            · subst hk; right; exact hmema _
            · exact Or.inl hk
          · exact hset _ _ (Or.inr hk)
    | error e =>
      have hcs : callSucceeds call a = false := by simp [callSucceeds, hca]
      have step : injectMultiAux call (a :: keys) succ fail pr errs
          = injectMultiAux call keys succ (fail + 1)
              (alistSet pr a (.rdict [("success", .rbool false),
                ("error", .rstr ("Error injecting to property " ++ a ++ ": " ++ e))]))
              (errs ++ ["Error injecting to property " ++ a ++ ": " ++ e]) := by
        unfold injectMultiAux
        rw [hca]
        dsimp only
        rw [injectMultiAux.eq_def]
      obtain ⟨ih1, ih2, ih3⟩ := ih succ (fail + 1) _ _
      refine ⟨?_, ?_, ?_⟩
      · rw [step, ih1]
        simp only [List.filter_cons, hcs, Bool.false_eq_true, if_false]
      · rw [step, ih2]
        simp only [List.filter_cons, hcs, Bool.not_false, if_true,
          List.length_cons]
        omega
      · intro k hk
        rw [step]
        apply ih3
        rcases hk with hk | hk
        · rcases List.mem_cons.mp hk with hk | hk
          · subst hk; right; exact hmema _
          · exact Or.inl hk
        · exact hset _ _ (Or.inr hk)

/-- C6: `inject_lead_to_multiple_properties` attempts every key — each
key gets its own entry in `property_results`, even when the call for
another key raised (`call` is universally quantified over raising
behaviours, so no exception aborts the rest) — and the overall `success`
flag is true exactly when `successful_injections > 0`; success and
failure counts partition the key list. -/
theorem c6_multi_property_isolation
    (call : String → Except String (List (String × RVal)))
    (keys : List String) :
    alistGet (injectLeadToMultipleProperties call keys) "successful_injections"
        = some (.rint ((keys.filter (callSucceeds call)).length)) ∧
    alistGet (injectLeadToMultipleProperties call keys) "failed_injections"
        = some (.rint ((keys.filter (fun k => !callSucceeds call k)).length)) ∧
    ((keys.filter (callSucceeds call)).length
        + (keys.filter (fun k => !callSucceeds call k)).length = keys.length) ∧
    alistGet (injectLeadToMultipleProperties call keys) "success"
        = some (.rbool (decide (0 < (keys.filter (callSucceeds call)).length))) ∧
    (∃ pr, alistGet (injectLeadToMultipleProperties call keys) "property_results"
        = some (.rdict pr) ∧ ∀ k, k ∈ keys → (alistGet pr k).isSome) := by
  obtain ⟨h1, h2, h3⟩ := injectMultiAux_spec call keys 0 0 [] []
  refine ⟨?_, ?_, filter_length_add_filter_not_length _ _, ?_, ?_⟩
  · show some (RVal.rint (injectMultiAux call keys 0 0 [] []).1)
        = some (RVal.rint ((keys.filter (callSucceeds call)).length))
    rw [h1, Nat.zero_add]
  · show some (RVal.rint (injectMultiAux call keys 0 0 [] []).2.1)
        = some (RVal.rint ((keys.filter (fun k => !callSucceeds call k)).length))
    rw [h2, Nat.zero_add]
  · show some (RVal.rbool (decide (0 < (injectMultiAux call keys 0 0 [] []).1)))
        = some (RVal.rbool (decide (0 < (keys.filter (callSucceeds call)).length)))
    rw [h1, Nat.zero_add]
  · refine ⟨(injectMultiAux call keys 0 0 [] []).2.2.1, rfl, ?_⟩
    intro k hk
    exact h3 k (Or.inl hk)

/-- C6 witness: three keys where `mar_de_cortes` has no configured
credential — two successes, one failure, overall success, no raise. -/
theorem c6_multi_property_isolation_witness :
    alistGet (injectLeadToMultipleProperties
        (fun k => Except.ok (injectLeadToProperty ["yucatan", "residencias"]
          (.ret (.rstr "7")) k))
        ["yucatan", "mar_de_cortes", "residencias"]) "successful_injections"
      = some (.rint 2) ∧
    alistGet (injectLeadToMultipleProperties
        (fun k => Except.ok (injectLeadToProperty ["yucatan", "residencias"]
          (.ret (.rstr "7")) k))
        ["yucatan", "mar_de_cortes", "residencias"]) "failed_injections"
      = some (.rint 1) ∧
    alistGet (injectLeadToMultipleProperties
        (fun k => Except.ok (injectLeadToProperty ["yucatan", "residencias"]
          (.ret (.rstr "7")) k))
        ["yucatan", "mar_de_cortes", "residencias"]) "success"
      = some (.rbool true) := by
  have h := c6_multi_property_isolation
    (fun k => Except.ok (injectLeadToProperty ["yucatan", "residencias"]
      (.ret (.rstr "7")) k))
    ["yucatan", "mar_de_cortes", "residencias"]
  exact ⟨h.1, h.2.1, h.2.2.2.1⟩

/-! ## C3 — `crm_injected` vs `crm_lead_id` -/

theorem appendError_get_ne (d : List (String × RVal)) (msg k : String)
    (hk : k ≠ "errors") :
    alistGet (appendError d msg) k = alistGet d k := by
  unfold appendError
  cases he : alistGet d "errors" with
  | none => rfl
  | some v =>
    cases v with
    | rlist l => rw [alistGet_alistSet_ne _ _ _ _ hk]
    | rbool b => rfl
    | rstr s => rfl
    | rint n => rfl
    | rnone => rfl
    | rdict dd => rfl

/-- The result dict of `inject_lead_to_property` never carries a
top-level `lead_id` entry (the id lives under `result["lasso"]`). -/
theorem injectLeadToProperty_no_lead_id (configured : List String)
    (lassoCall : LassoOutcome) (key : String) :
    alistGet (injectLeadToProperty configured lassoCall key) "lead_id" = none := by
  have hbase : alistGet
      [("success", RVal.rbool false), ("property_key", RVal.rstr key),
       ("property_info", propInfoRVal (getPropertyInfo key)),
       ("lasso", RVal.rnone), ("errors", RVal.rlist [])] "lead_id" = none := rfl
  unfold injectLeadToProperty
  by_cases hv : validatePropertyKey configured key = true
  · rw [if_neg (by simp [hv])]
    cases hpi : getPropertyInfo key with
    | none =>
      dsimp only
      rw [appendError_get_ne _ _ _ (by decide)]
      exact hbase
    | some pi =>
      dsimp only
      have hb2 : alistGet (alistSet
          [("success", RVal.rbool false), ("property_key", RVal.rstr key),
           ("property_info", propInfoRVal (getPropertyInfo key)),
           ("lasso", RVal.rnone), ("errors", RVal.rlist [])]
          "property_info" (propInfoRVal (some pi))) "lead_id" = none := by
        rw [alistGet_alistSet_ne _ _ _ _ (by decide)]
        exact hbase
      by_cases hne : configured.isEmpty = true
      · rw [if_neg (by simp [hne])]
        rw [appendError_get_ne _ _ _ (by decide)]
        exact hb2
      · rw [if_pos (by simp [hne])]
        by_cases hc : isPropertyConfigured configured key = true
        · rw [if_pos hc]
          by_cases ht : dictTruthy (injectToLasso lassoCall key) "success" = true
          · rw [if_pos ht]
            rw [alistGet_alistSet_ne _ _ _ _ (by decide),
                alistGet_alistSet_ne _ _ _ _ (by decide)]
            exact hb2
          · rw [if_neg ht]
            rw [alistGet_alistSet_ne _ _ _ _ (by decide)]
            exact hb2
        · rw [if_neg hc]
          rw [alistGet_alistSet_ne _ _ _ _ (by decide),
              appendError_get_ne _ _ _ (by decide)]
          exact hb2
  · rw [if_pos (by simp [hv])]
    rw [appendError_get_ne _ _ _ (by decide)]
    exact hbase

/-- C3 (code bug): a successful CRM injection marks the lead
`crm_injected = true` yet stores no CRM lead id —
`result.get("lead_id")` is `None` because the id is nested under
`result["lasso"]` — so the claimed invariant
`crm_injected → crm_lead_id nonempty` fails on the very first
successful injection. -/
theorem c3_crm_lead_id_lost :
    ((injectQualifiedLeadToCrm ["yucatan"] (.ret (.rstr "12345")) []
        ⟨"yucatan", "yucatan", false, none⟩ none).1.crmInjected = true) ∧
    ((injectQualifiedLeadToCrm ["yucatan"] (.ret (.rstr "12345")) []
        ⟨"yucatan", "yucatan", false, none⟩ none).1.crmLeadId = none) ∧
    (alistGet (injectQualifiedLeadToCrm ["yucatan"] (.ret (.rstr "12345")) []
        ⟨"yucatan", "yucatan", false, none⟩ none).2 "success"
      = some (.rbool true)) ∧
    (∀ (configured : List String) (lassoCall : LassoOutcome) (key : String),
      alistGet (injectLeadToProperty configured lassoCall key) "lead_id" = none) :=
  ⟨rfl, rfl, rfl, injectLeadToProperty_no_lead_id⟩

/-! ## C5 — Existing-but-unconfigured property keys -/

/-- C5 (code bug): for a property key that is in the property table but
has no API key configured, `inject_lead_to_property` returns
`success = false` without raising, but with the generic
`"Invalid property key"` error — the same error an unknown key gets —
instead of the dedicated "not configured" message, because
`validate_property_key` already requires a configured credential. -/
theorem c5_unconfigured_invalid_key (configured : List String)
    (lassoCall : LassoOutcome) (key : String)
    (hmem : key ∈ lassoPropertyKeys) (hconf : key ∉ configured) :
    injectLeadToProperty configured lassoCall key =
      [("success", RVal.rbool false), ("property_key", RVal.rstr key),
       ("property_info", propInfoRVal (getPropertyInfo key)),
       ("lasso", RVal.rnone),
       ("errors", RVal.rlist ["Invalid property key: " ++ key])] := by
  have hlower : pyLower key = key := by
    fin_cases hmem <;> rfl
  have hv : validatePropertyKey configured key = false := by
    unfold validatePropertyKey
    rw [hlower]
    simpa using hconf
  unfold injectLeadToProperty
  rw [if_pos (by simp [hv])]
  rfl

/-- C5 witness: `"yucatan"` exists in the table; with only
`"residencias"` configured it gets the invalid-key error and
`success = false`. -/
theorem c5_unconfigured_invalid_key_witness :
    injectLeadToProperty ["residencias"] (.ret (.rstr "7")) "yucatan" =
      [("success", RVal.rbool false), ("property_key", RVal.rstr "yucatan"),
       ("property_info", propInfoRVal (getPropertyInfo "yucatan")),
       ("lasso", RVal.rnone),
       ("errors", RVal.rlist ["Invalid property key: yucatan"])] :=
  c5_unconfigured_invalid_key ["residencias"] (.ret (.rstr "7")) "yucatan"
    (by decide) (by decide)

/-! ## C9 — Phone normalization: idempotence and the `whatsapp:` tag -/

theorem isPySpace_of_isDigit (c : Char) (h : c.isDigit = true) :
    isPySpace c = false := by
  cases hs : isPySpace c
  · rfl
  · exfalso
    unfold isPySpace at hs
    simp only [Bool.or_eq_true, decide_eq_true_eq] at hs
    rcases hs with ((((h1 | h1) | h1) | h1) | h1) | h1 <;> subst h1 <;> simp at h

theorem ne_w_of_isDigit (c : Char) (h : c.isDigit = true) : c ≠ 'w' := by
  intro hc
  subst hc
  simp at h

theorem dropWhile_eq_self_of_all {p : Char → Bool} {l : List Char}
    (h : ∀ c ∈ l, p c = false) : l.dropWhile p = l := by
  cases l with
  | nil => rfl
  | cons a t =>
    exact List.dropWhile_cons_of_neg (by simp [h a (List.mem_cons_self a t)])

theorem pyStripChars_eq_self {l : List Char}
    (h : ∀ c ∈ l, isPySpace c = false) : pyStripChars l = l := by
  unfold pyStripChars lstripChars rstripChars
  rw [dropWhile_eq_self_of_all (fun c hc => h c (List.mem_reverse.mp hc)),
      List.reverse_reverse, dropWhile_eq_self_of_all h]

set_option maxHeartbeats 2000000 in
theorem stripWhatsappTag_eq_self : ∀ (l : List Char),
    (∀ c ∈ l, c ≠ 'w') → stripWhatsappTag l = l := by
  intro l
  induction l with
  | nil => intro; rfl
  | cons a t ih =>
    intro h
    have ha : a ≠ 'w' := h a (List.mem_cons_self a t)
    have ht : ∀ c ∈ t, c ≠ 'w' := fun c hc => h c (List.mem_cons_of_mem a hc)
    rw [stripWhatsappTag.eq_def]
    split
    · next rest heq =>
      injection heq with h1 _
      exact absurd h1 ha
    · next x c rest hno heq =>
      injection heq with h1 h2
      subst h1
      subst h2
      rw [ih ht]
    · next x heq => cases heq

theorem mem_filter_isDigit {l : List Char} {c : Char}
    (h : c ∈ l.filter Char.isDigit) : c.isDigit = true :=
  (List.mem_filter.mp h).2

theorem filter_isDigit_head_ne_plus {l : List Char}
    (h : (l.filter Char.isDigit).head? = some '+') : False := by
  cases hf : l.filter Char.isDigit with
  | nil => rw [hf] at h; cases h
  | cons a t =>
    rw [hf] at h
    simp only [List.head?_cons, Option.some.injEq] at h
    subst h
    have : '+' ∈ l.filter Char.isDigit := by rw [hf]; exact List.mem_cons_self _ _
    have := mem_filter_isDigit this
    simp at this

/-- Every output of `normalize_phone_number` is empty or a `+` followed
by digits only. -/
theorem normalizePhoneChars_shape (cs : List Char) :
    normalizePhoneChars cs = [] ∨
    ∃ ds, normalizePhoneChars cs = '+' :: ds ∧ ∀ c ∈ ds, c.isDigit = true := by
  unfold normalizePhoneChars
  by_cases he : cs.isEmpty = true
  · rw [if_pos he]; exact Or.inl rfl
  rw [if_neg he]
  unfold normalizePhoneTail
  set s := stripWhatsappTag (pyStripChars cs) with hs
  by_cases hp : s.head? = some '+'
  · rw [if_pos hp]
    dsimp only
    rw [if_neg (by simp : ¬ (('+' :: s.tail.filter Char.isDigit).isEmpty = true))]
    rw [if_pos (by simp : ('+' :: s.tail.filter Char.isDigit).head? = some '+')]
    exact Or.inr ⟨s.tail.filter Char.isDigit, rfl,
      fun c hc => mem_filter_isDigit hc⟩
  · rw [if_neg hp]
    dsimp only
    by_cases hde : (s.filter Char.isDigit).isEmpty = true
    · rw [if_pos hde]
      exact Or.inl (List.isEmpty_iff.mp hde)
    · rw [if_neg hde]
      rw [if_neg (fun hh => filter_isDigit_head_ne_plus hh)]
      by_cases hl : (s.filter Char.isDigit).length = 10
      · rw [if_pos hl]
        refine Or.inr ⟨'5' :: '2' :: s.filter Char.isDigit, rfl, ?_⟩
        intro c hc
        rcases List.mem_cons.mp hc with hc | hc
        · subst hc; rfl
        rcases List.mem_cons.mp hc with hc | hc
        · subst hc; rfl
        · exact mem_filter_isDigit hc
      · rw [if_neg hl]
        exact Or.inr ⟨s.filter Char.isDigit, rfl, fun c hc => mem_filter_isDigit hc⟩

theorem normalizePhoneChars_idem (cs : List Char) :
    normalizePhoneChars (normalizePhoneChars cs) = normalizePhoneChars cs := by
  rcases normalizePhoneChars_shape cs with h | ⟨ds, h, hds⟩
  · rw [h]; rfl
  · rw [h]
    have hnospace : ∀ c ∈ '+' :: ds, isPySpace c = false := by
      intro c hc
      rcases List.mem_cons.mp hc with hc | hc
      · subst hc; rfl
      · exact isPySpace_of_isDigit c (hds c hc)
    have hnow : ∀ c ∈ '+' :: ds, c ≠ 'w' := by
      intro c hc
      rcases List.mem_cons.mp hc with hc | hc
      · subst hc; decide
      · exact ne_w_of_isDigit c (hds c hc)
    unfold normalizePhoneChars
    rw [if_neg (by simp : ¬ (('+' :: ds).isEmpty = true))]
    rw [pyStripChars_eq_self hnospace, stripWhatsappTag_eq_self _ hnow]
    unfold normalizePhoneTail
    rw [if_pos (by simp : ('+' :: ds).head? = some '+')]
    dsimp only [List.tail_cons]
    rw [List.filter_eq_self.mpr hds]
    rw [if_neg (by simp : ¬ (('+' :: ds).isEmpty = true))]
    rw [if_pos (by simp : ('+' :: ds).head? = some '+')]

theorem rstripChars_cons_of_head {c : Char} {rest : List Char}
    (hc : isPySpace c = false) :
    rstripChars (c :: rest) = c :: rstripChars rest := by
  unfold rstripChars
  rw [List.reverse_cons, List.dropWhile_append]
  by_cases hd : (rest.reverse.dropWhile isPySpace).isEmpty = true
  · rw [if_pos hd]
    rw [List.dropWhile_cons_of_neg (by simp [hc]), List.isEmpty_iff.mp hd]
    rfl
  · rw [if_neg hd]
    rw [List.reverse_append]
    rfl

theorem lstripChars_of_head {l : List Char} {a : Char}
    (hl : l.head? = some a) (ha : isPySpace a = false) :
    lstripChars l = l := by
  cases l with
  | nil => rfl
  | cons x t =>
    simp only [List.head?_cons, Option.some.injEq] at hl
    subst hl
    exact List.dropWhile_cons_of_neg (by simp [ha])

theorem rstripChars_append_of_all {m l : List Char}
    (hm : ∀ c ∈ m, isPySpace c = false) :
    rstripChars (m ++ l) = m ++ rstripChars l := by
  induction m with
  | nil => rfl
  | cons a t ih =>
    rw [List.cons_append,
        rstripChars_cons_of_head (hm a (List.mem_cons_self a t)),
        ih (fun c hc => hm c (List.mem_cons_of_mem a hc))]
    rfl

/-- C9 counterexample to the claim as stated: with a leading blank
before the `+`, adding the `whatsapp:` tag changes the result — the
tagged form loses the `+` to the blank and then gains the default
country code. -/
theorem c9_whatsapp_prefix_counterexample :
    normalizePhoneNumber ("whatsapp:" ++ " +1234567890")
        ≠ normalizePhoneNumber " +1234567890" ∧
    normalizePhoneNumber ("whatsapp:" ++ " +1234567890") = "+521234567890" ∧
    normalizePhoneNumber " +1234567890" = "+1234567890" := by
  refine ⟨by decide, by decide, by decide⟩

/-- C9 (amended): `normalize_phone_number` is idempotent on every input,
and removing a `"whatsapp:"` prefix commutes with normalization for
every input that does not start with whitespace. -/
theorem c9_normalize_phone_idempotent (p : String) :
    normalizePhoneNumber (normalizePhoneNumber p) = normalizePhoneNumber p ∧
    (hasLeadingSpace p = false →
      normalizePhoneNumber ("whatsapp:" ++ p) = normalizePhoneNumber p) := by
  constructor
  · show (⟨normalizePhoneChars (normalizePhoneChars p.data)⟩ : String) = _
    rw [normalizePhoneChars_idem]
    rfl
  · intro h
    cases p with
    | mk pdata =>
      cases pdata with
      | nil => decide
      | cons c rest =>
        have hc : isPySpace c = false := by
          simpa [hasLeadingSpace] using h
        have hstrip : pyStripChars ("whatsapp:".data ++ (c :: rest))
            = "whatsapp:".data ++ (c :: rstripChars rest) := by
          unfold pyStripChars
          rw [rstripChars_append_of_all (by decide),
              rstripChars_cons_of_head hc]
          exact lstripChars_of_head
            (show ("whatsapp:".data ++ (c :: rstripChars rest)).head? = some 'w'
              from rfl) (by decide)
        have hstrip2 : pyStripChars (c :: rest) = c :: rstripChars rest := by
          unfold pyStripChars
          rw [rstripChars_cons_of_head hc]
          exact lstripChars_of_head
            (show (c :: rstripChars rest).head? = some c from rfl) hc
        show (⟨normalizePhoneChars ("whatsapp:".data ++ (c :: rest))⟩ : String)
            = (⟨normalizePhoneChars (c :: rest)⟩ : String)
        unfold normalizePhoneChars
        rw [if_neg (by simp : ¬ (("whatsapp:".data ++ (c :: rest)).isEmpty = true)),
            if_neg (by simp : ¬ ((c :: rest).isEmpty = true))]
        rw [hstrip, hstrip2]
        rfl

/-- C9 witness: a concrete no-leading-blank input is idempotent and
tag-invariant. -/
theorem c9_normalize_phone_idempotent_witness :
    hasLeadingSpace "+52 300 123 4567" = false ∧
    normalizePhoneNumber (normalizePhoneNumber "+52 300 123 4567")
        = normalizePhoneNumber "+52 300 123 4567" ∧
    normalizePhoneNumber ("whatsapp:" ++ "+52 300 123 4567")
        = normalizePhoneNumber "+52 300 123 4567" :=
  ⟨by decide, (c9_normalize_phone_idempotent "+52 300 123 4567").1,
   (c9_normalize_phone_idempotent "+52 300 123 4567").2 (by decide)⟩

/-! ## C1 — Rating monotonicity -/

/-- A rating value producible by `create_or_update_lead_immediately`. -/
def goodRating (st : LeadRec) : Prop :=
  st.leadRating = "initial" ∨ st.leadRating = "warm" ∨ st.leadRating = "hot"

theorem inferLeadRating_cases (m : String) :
    inferLeadRating m = "initial" ∨ inferLeadRating m = "warm" ∨
      inferLeadRating m = "hot" := by
  unfold inferLeadRating
  by_cases h1 : (["urgente", "inmediato", "esta semana", "pronto", "visita",
      "llamada", "contacto"].any (fun w => pyIn w m)) = true
  · simp [h1]
  · by_cases h2 : (["comprar", "comprar", "invertir", "inversión",
        "presupuesto", "precio", "costo"].any (fun w => pyIn w m)) = true
    · simp [h1, h2]
    · simp [h1, h2]

theorem createOrUpdateLeadStep_none_rating (m n : String) :
    (createOrUpdateLeadStep none m n).leadRating = inferLeadRating (pyLower m) := by
  rfl

theorem createOrUpdateLeadStep_some_rating (st : LeadRec) (m n : String) :
    (createOrUpdateLeadStep (some st) m n).leadRating =
      (if ratingHierarchy (inferLeadRating (pyLower m)) > ratingHierarchy st.leadRating
       then inferLeadRating (pyLower m) else st.leadRating) := by
  unfold createOrUpdateLeadStep
  dsimp only
  split_ifs <;> simp_all

/-- On producible ratings the source's `rating_hierarchy.get(r, 1)`
agrees with the claim's order `cold < initial < warm < hot`. -/
theorem ratingHierarchy_eq_claimLevel (r : String)
    (h : r = "initial" ∨ r = "warm" ∨ r = "hot") :
    ratingHierarchy r = claimRatingLevel r := by
  rcases h with h | h | h <;> rw [h] <;> rfl

theorem pipeline_rating_good : ∀ (msgs : List (String × String))
    (acc : Option LeadRec),
    (∀ st, acc = some st → goodRating st) →
    ∀ st', msgs.foldl (fun a p => some (createOrUpdateLeadStep a p.1 p.2)) acc
        = some st' → goodRating st' := by
  intro msgs
  induction msgs with
  | nil => intro acc h st' he; exact h st' (by simpa using he)
  | cons p ps ih =>
    intro acc h st' he
    refine ih (some (createOrUpdateLeadStep acc p.1 p.2)) ?_ st' (by simpa using he)
    intro st hst
    have hst' : st = createOrUpdateLeadStep acc p.1 p.2 := by
      simpa using hst.symm
    subst hst'
    cases acc with
    | none =>
      unfold goodRating
      rw [createOrUpdateLeadStep_none_rating]
      exact inferLeadRating_cases _
    | some st0 =>
      unfold goodRating
      rw [createOrUpdateLeadStep_some_rating]
      split_ifs with hc
      · exact inferLeadRating_cases _
      · exact h st0 rfl

theorem step_rating_mono (st : LeadRec) (m n : String) (hg : goodRating st) :
    claimRatingLevel st.leadRating
      ≤ claimRatingLevel (createOrUpdateLeadStep (some st) m n).leadRating := by
  rw [createOrUpdateLeadStep_some_rating]
  split_ifs with hc
  · rw [ratingHierarchy_eq_claimLevel _ hg,
        ratingHierarchy_eq_claimLevel _ (inferLeadRating_cases _)] at hc
    exact Nat.le_of_lt hc
  · exact Nat.le_refl _

theorem pipeline_rating_mono : ∀ (msgs' : List (String × String)) (st : LeadRec),
    goodRating st →
    ∀ st', msgs'.foldl (fun a p => some (createOrUpdateLeadStep a p.1 p.2)) (some st)
        = some st' →
      claimRatingLevel st.leadRating ≤ claimRatingLevel st'.leadRating := by
  intro msgs'
  induction msgs' with
  | nil =>
    intro st hg st' he
    have : st = st' := by simpa using he
    rw [this]
  | cons p ps ih =>
    intro st hg st' he
    have hgood1 : goodRating (createOrUpdateLeadStep (some st) p.1 p.2) := by
      unfold goodRating
      rw [createOrUpdateLeadStep_some_rating]
      split_ifs with hc
      · exact inferLeadRating_cases _
      · exact hg
    refine Nat.le_trans (step_rating_mono st p.1 p.2 hg) ?_
    exact ih (createOrUpdateLeadStep (some st) p.1 p.2) hgood1 st' (by simpa using he)

/-- C1: along any message sequence handled by
`create_or_update_lead_immediately`, the stored rating moves only
forward in `cold < initial < warm < hot`: an update stores the newly
inferred rating exactly when it is strictly higher than the existing
one, the rating level never decreases over any continuation of the
sequence, and the signal sequence `[initial, hot, warm]` ends at
`"hot"`. -/
theorem c1_rating_monotonic (msgs : List (String × String)) (st : LeadRec)
    (hreach : runLeadPipeline msgs = some st) :
    (∀ m n,
      ((createOrUpdateLeadStep (some st) m n).leadRating
          = inferLeadRating (pyLower m) ∧
        claimRatingLevel st.leadRating
          < claimRatingLevel (inferLeadRating (pyLower m))) ∨
      ((createOrUpdateLeadStep (some st) m n).leadRating = st.leadRating ∧
        ¬ claimRatingLevel st.leadRating
          < claimRatingLevel (inferLeadRating (pyLower m)))) ∧
    (∀ (msgs' : List (String × String)) (st' : LeadRec),
      runLeadPipeline (msgs ++ msgs') = some st' →
      claimRatingLevel st.leadRating ≤ claimRatingLevel st'.leadRating) ∧
    (runLeadPipeline [("hola", ""), ("quiero una visita", ""),
        ("tengo presupuesto", "")]).map (·.leadRating) = some "hot" := by
  have hgood : goodRating st :=
    pipeline_rating_good msgs none (by intro st h; cases h) st hreach
  refine ⟨?_, ?_, by decide⟩
  · intro m n
    have hlv := ratingHierarchy_eq_claimLevel _ hgood
    have hlv' := ratingHierarchy_eq_claimLevel _ (inferLeadRating_cases (pyLower m))
    rw [createOrUpdateLeadStep_some_rating]
    by_cases hc : ratingHierarchy (inferLeadRating (pyLower m))
        > ratingHierarchy st.leadRating
    · left
      refine ⟨by rw [if_pos hc], ?_⟩
      rw [← hlv, ← hlv']
      exact hc
    · right
      refine ⟨by rw [if_neg hc], ?_⟩
      rw [← hlv, ← hlv']
      exact hc
  · intro msgs' st' he
    unfold runLeadPipeline at he
    rw [List.foldl_append] at he
    have he' :
        msgs'.foldl (fun a p => some (createOrUpdateLeadStep a p.1 p.2)) (some st)
          = some st' := by
      rw [← hreach]
      exact he
    exact pipeline_rating_mono msgs' st hgood st' he'

/-- C1 witness at the one-message prefix `[("hola", "")]`. -/
theorem c1_rating_monotonic_witness :
    (runLeadPipeline [("hola", ""), ("quiero una visita", ""),
        ("tengo presupuesto", "")]).map (·.leadRating) = some "hot" :=
  (c1_rating_monotonic [("hola", "")]
    ⟨"", "yucatan", "yucatan", "initial",
      "Lead creado automáticamente - Rating: initial"⟩ (by decide)).2.2

/-! ## C10 — Sender info overrides AI-supplied argument fields -/

/-- C10: for a WhatsApp sender (case-insensitive platform check), the
argument payload reaching any handler has `telefono` forced to the
sender's number and `fuente` forced to the platform, regardless of what
the AI put in the arguments. -/
theorem c10_sender_info_overrides (args : List (String × PyVal))
    (si : SenderInfo)
    (h : pyLower (si.platform.getD "whatsapp") = "whatsapp") :
    alistGet (addSenderInfoToArgs args (some si)) "telefono"
        = some (.vstr (si.number.getD "")) ∧
    alistGet (addSenderInfoToArgs args (some si)) "fuente"
        = some (.vstr (si.platform.getD "whatsapp")) := by
  simp only [addSenderInfoToArgs]
  rw [if_pos h]
  constructor
  · rw [alistGet_alistSet_ne _ _ _ _ (by decide), alistGet_alistSet_self]
  · rw [alistGet_alistSet_self]

/-- C10 witness: AI-supplied `telefono`/`fuente` values are overwritten
for a `"WhatsApp"` sender. -/
theorem c10_sender_info_overrides_witness :
    alistGet (addSenderInfoToArgs
        [("telefono", PyVal.vstr "555-FAKE"), ("fuente", PyVal.vstr "inventado")]
        (some ⟨some "+5215550001111", some "WhatsApp"⟩)) "telefono"
      = some (.vstr "+5215550001111") ∧
    alistGet (addSenderInfoToArgs
        [("telefono", PyVal.vstr "555-FAKE"), ("fuente", PyVal.vstr "inventado")]
        (some ⟨some "+5215550001111", some "WhatsApp"⟩)) "fuente"
      = some (.vstr "WhatsApp") := by
  have h := c10_sender_info_overrides
      [("telefono", PyVal.vstr "555-FAKE"), ("fuente", PyVal.vstr "inventado")]
      ⟨some "+5215550001111", some "WhatsApp"⟩ (by decide)
  simpa using h

end Chable
